import Mathlib

set_option autoImplicit false

/-
Shallow embedding of the MT5 trading engine core (strategies, position
manager, money manager, performance tracker/ledger, parameter optimizer).
Each definition is translated from the corresponding Python source file;
pandas float columns that may hold NaN are modelled as `Option ℚ` (or the
`PVal` type when infinities can syntactically arise), machine floats as `ℚ`,
datetimes as `ℚ`/`ℤ` time stamps, and Python dicts as association lists.
-/

/-- Trade direction: the `'BUY'` / `'SELL'` strings of the source
(`mt5.POSITION_TYPE_BUY = 0`, `mt5.POSITION_TYPE_SELL = 1`). -/
inductive Side where
  | buy
  | sell
deriving DecidableEq, Repr

/-! ## src/strategies/ma_strategy.py -/

/--
`MAStrategy.generate_signal` (src/strategies/ma_strategy.py).
The indicator frame is reduced to its two moving-average columns: each row
carries `(MA_short, MA_long)`, where `none` models a pandas NaN (not enough
history yet).  The source reads the last row (`df.iloc[-1]`) and the one
before (`df.iloc[-2]`), returns `None` when `len(df) < 2` or any of the four
values is NaN, `'BUY'` on a golden cross and `'SELL'` on a death cross.
-/
def ma_generate_signal (frame : List (Option ℚ × Option ℚ)) : Option Side :=
  if frame.length < 2 then none
  else
    match frame.reverse with
    | latest :: prev :: _ =>
      match latest.1, latest.2, prev.1, prev.2 with
      | some latest_s, some latest_l, some prev_s, some prev_l =>
        if prev_s < prev_l ∧ latest_s > latest_l then some Side.buy
        else if prev_s > prev_l ∧ latest_s < latest_l then some Side.sell
        else none
      | _, _, _, _ => none
    | _ => none

/-! ## src/trading/position_manager.py -/

/-- The fields of an `mt5` position object used by `check_signal_with_positions`. -/
structure MT5Position where
  ticket : ℕ
  symbol : String
  ptype : Side
deriving DecidableEq, Repr

/-- A close request assembled by `check_signal_with_positions`. -/
structure CloseOrder where
  ticket : ℕ
  symbol : String
  reason : String
deriving DecidableEq, Repr

/--
The close-order accumulation block of `check_signal_with_positions`
(src/trading/position_manager.py): the DKLL branch reads the last row's `DL`
(`dl_latest = none` models a missing column or NaN, which the source maps to
`0` via `latest.get('DL', 0) if not pd.isna(...)`), every other strategy
closes on a reversing signal.  The numeric interpolations inside the Python
reason strings are elided.
-/
def build_close_orders (strategy_name : String) (signal : Option Side)
    (dl_latest : Option ℚ) (current_positions : List MT5Position) : List CloseOrder :=
  if strategy_name = "DKLL策略" then
    let dl_value : ℚ := dl_latest.getD 0
    current_positions.filterMap (fun pos =>
      match pos.ptype with
      | Side.buy =>
        if dl_value ≤ 0 then some ⟨pos.ticket, pos.symbol, "DKLL平多信号"⟩ else none
      | Side.sell =>
        if 0 ≤ dl_value then some ⟨pos.ticket, pos.symbol, "DKLL平空信号"⟩ else none)
  else
    match signal with
    | some sg =>
      current_positions.filterMap (fun pos =>
        if (pos.ptype = Side.buy ∧ sg = Side.sell) ∨
           (pos.ptype = Side.sell ∧ sg = Side.buy) then
          some ⟨pos.ticket, pos.symbol, strategy_name ++ "反向信号"⟩
        else none)
    | none => []

/--
`check_signal_with_positions` (src/trading/position_manager.py).
The strategy evaluation is abstracted into its outcome: `signal` is the value
of `strategy_manager.generate_signal(df_with_indicators)`.  With no open
positions the open signal is forwarded as is; with open positions the close
orders are accumulated (`build_close_orders`) and, when any close fires, no
new open signal is produced.
-/
def check_signal_with_positions (strategy_name : String) (signal : Option Side)
    (dl_latest : Option ℚ) (current_positions : List MT5Position) :
    Option Side × List CloseOrder :=
  if current_positions.length = 0 then (signal, [])
  else
    let close_orders : List CloseOrder :=
      build_close_orders strategy_name signal dl_latest current_positions
    if close_orders.isEmpty then (signal, []) else (none, close_orders)

/-! ## src/trading/money_manager.py -/

/-- The per-symbol entries of `TRADING_SYMBOLS` used by `check_position_limits`. -/
structure SymbolConfig where
  enabled : Bool
  max_positions : ℕ
  max_volume : ℚ
deriving Repr

/-- The fields of `mt5.account_info()` used by `check_position_limits`. -/
structure AccountInfo where
  balance : ℚ
  equity : ℚ
  margin : ℚ
  margin_free : ℚ
deriving Repr

/-- The entries of `MONEY_MANAGEMENT` used by `check_position_limits`. -/
structure MoneyConfig where
  min_free_margin_ratio : ℚ
  max_total_risk : ℚ
deriving Repr

/-- The single field of an `mt5` position used by `check_position_limits`. -/
structure VolPosition where
  volume : ℚ
deriving Repr

/--
`MoneyManager.check_position_limits` (src/trading/money_manager.py).
`cfg = none` models both a missing symbol entry and a falsy config;
`positions` is the result of `mt5.positions_get(symbol=symbol)` (`None`
already normalised to `[]` as in the source) and `account` the result of
`mt5.account_info()`.  Returns `(can_open, reason)`.
-/
def check_position_limits (cfg : Option SymbolConfig) (mc : MoneyConfig)
    (positions : List VolPosition) (account : Option AccountInfo) : Bool × String :=
  match cfg with
  | none => (false, "未启用交易")
  | some c =>
    if ¬ c.enabled then (false, "未启用交易")
    else
      let current_positions := positions.length
      if c.max_positions ≤ current_positions then (false, "已达最大持仓数量限制")
      else
        let total_volume := (positions.map VolPosition.volume).sum
        if c.max_volume ≤ total_volume then (false, "已达最大持仓量限制")
        else
          match account with
          | some a =>
            if a.margin_free < a.margin * mc.min_free_margin_ratio then
              (false, "可用保证金不足")
            else
              if 0 < a.margin ∧ mc.max_total_risk < |(a.equity - a.balance) / a.balance| then
                (false, "总风险超过限制")
              else (true, "可以开仓")
          | none => (true, "可以开仓")

/-! ## src/analysis/performance_tracker.py -/

/-- The dict built by `TradingPerformanceTracker.record_order_open`
(an entry of `self.open_positions`, `status = 'OPEN'` implicit). -/
structure OpenRec where
  ticket : ℕ
  symbol : String
  side : Side
  volume : ℚ
  open_price : ℚ
  open_time : ℤ
  strategy : String
deriving DecidableEq, Repr

/-- The dict appended to `self.trades` by `record_order_close`
(`status = 'CLOSED'` implicit; `duration = close_time - open_time`). -/
structure ClosedRec where
  opened : OpenRec
  close_price : ℚ
  close_time : ℤ
  profit : ℚ
  duration : ℤ
deriving DecidableEq, Repr

/-- The mutable state of `TradingPerformanceTracker`: `self.trades` and
`self.open_positions` (a Python dict, modelled as an association list in
insertion order). -/
structure TrackerState where
  trades : List ClosedRec
  open_positions : List (ℕ × OpenRec)
deriving DecidableEq, Repr

/-- Dict lookup `self.open_positions[ticket]` / the `ticket in self.open_positions` test. -/
def findOpen : List (ℕ × OpenRec) → ℕ → Option OpenRec
  | [], _ => none
  | p :: rest, t => if p.1 = t then some p.2 else findOpen rest t

/-- The closed record built by `record_order_close` from an open record:
profit is the explicit `profit` argument when given, otherwise the simple
price-difference times volume estimate of the source. -/
def mkClosed (r : OpenRec) (close_price : ℚ) (close_time : ℤ) (profit? : Option ℚ) : ClosedRec :=
  { opened := r
    close_price := close_price
    close_time := close_time
    profit :=
      match profit? with
      | some p => p
      | none =>
        match r.side with
        | Side.buy => (close_price - r.open_price) * r.volume
        | Side.sell => (r.open_price - close_price) * r.volume
    duration := close_time - r.open_time }

/--
`TradingPerformanceTracker.record_order_close` (src/analysis/performance_tracker.py).
If the ticket has an open record: append the completed record to `trades`
and delete the ticket from `open_positions`; otherwise only a warning is
logged and the state is returned unchanged.
-/
def record_order_close (st : TrackerState) (ticket : ℕ) (close_price : ℚ)
    (close_time : ℤ) (profit? : Option ℚ) : TrackerState :=
  match findOpen st.open_positions ticket with
  | some r =>
    { trades := st.trades ++ [mkClosed r close_price close_time profit?]
      open_positions := st.open_positions.filter (fun p => p.1 ≠ ticket) }
  | none => st

/-- The fields of an `mt5` deal object used by `update_positions_from_mt5`;
`entry = 1` is `mt5.DEAL_ENTRY_OUT`. -/
structure Deal where
  entry : ℕ
  price : ℚ
  time : ℤ
  profit : ℚ
deriving DecidableEq, Repr

/-- The broker snapshot consumed by one `update_positions_from_mt5` pass:
`current_tickets` are the tickets of `mt5.positions_get()`,
`history_deals t` is `mt5.history_deals_get(ticket=t)` (`None` and the empty
tuple both modelled as `[]`), and `tick_bid s` is `_get_current_price(s)`
(`none` when the tick is unavailable). -/
structure BrokerSnapshot where
  current_tickets : List ℕ
  history_deals : ℕ → List Deal
  tick_bid : String → Option ℚ

/--
The body of the `for ticket in closed_tickets` loop of
`update_positions_from_mt5`: resolve one locally-open ticket that the broker
no longer reports.  If the deal history is non-empty, only the first
`DEAL_ENTRY_OUT` deal triggers a close (no deal with `entry == 1` means no
call to `record_order_close` at all); if the history is empty the source
falls back to the current bid (note the Python truthiness test
`if current_price:`, under which a `0.0` price is also rejected) and finally
to the open price of the record itself.
-/
def closeOneTicket (bk : BrokerSnapshot) (now : ℤ) (st : TrackerState) (ticket : ℕ) :
    TrackerState :=
  let deals := bk.history_deals ticket
  if deals.isEmpty then
    match findOpen st.open_positions ticket with
    | some r =>
      match bk.tick_bid r.symbol with
      | some p =>
        if p = 0 then record_order_close st ticket r.open_price now none
        else record_order_close st ticket p now none
      | none => record_order_close st ticket r.open_price now none
    | none => st
  else
    match deals.find? (fun d => d.entry == 1) with
    | some d => record_order_close st ticket d.price d.time (some d.profit)
    | none => st

/-- `closed_tickets`: the locally-open tickets absent from the broker's
currently reported live positions. -/
def closedTickets (st : TrackerState) (bk : BrokerSnapshot) : List ℕ :=
  (st.open_positions.map Prod.fst).filter (fun t => decide (t ∉ bk.current_tickets))

/--
`TradingPerformanceTracker.update_positions_from_mt5`
(src/analysis/performance_tracker.py): diff the local open set against the
broker's live tickets and resolve every vanished ticket via `closeOneTicket`.
-/
def update_positions_from_mt5 (bk : BrokerSnapshot) (now : ℤ) (st : TrackerState) :
    TrackerState :=
  (closedTickets st bk).foldl (closeOneTicket bk now) st

/-! ## src/analysis/optimizer.py -/

/-- One entry of the `trades` list built by the simulation loop of
`ParameterOptimizer._backtest_parameters` (durations are in hours:
`(exit_time - entry_time).total_seconds() / 3600`, times modelled in
seconds). -/
structure BTrade where
  side : Side
  entry_price : ℚ
  exit_price : ℚ
  entry_time : ℚ
  exit_time : ℚ
  profit : ℚ
  duration : ℚ
deriving DecidableEq, Repr

/-- The loop state of the simulation in `_backtest_parameters`:
`position` is `None`/`'BUY'`/`'SELL'`, `entry_price` starts at `0` and
`entry_time` at `None` (modelled as `0`; it is only read after an open). -/
structure BTState where
  trades : List BTrade
  position : Option Side
  entry_price : ℚ
  entry_time : ℚ
deriving DecidableEq, Repr

/--
One iteration of `for i in range(1, len(df_with_indicators))` in
`_backtest_parameters`.  `sig i` abstracts
`strategy.generate_signal(df_with_indicators.iloc[:i+1])`: the signal the
isolated strategy instance produces on the prefix ending at bar `i`.
A signal while flat opens; an opposite signal closes the open trade at the
current close price and immediately opens in the new direction; a matching
signal or no signal changes nothing.
-/
def btStep (closes times : List ℚ) (sig : ℕ → Option Side) (s : BTState) (i : ℕ) :
    BTState :=
  match sig i, s.position with
  | some sg, none =>
    { s with position := some sg, entry_price := closes.getD i 0,
             entry_time := times.getD i 0 }
  | some sg, some p =>
    if sg = p then s
    else
      let exit_price := closes.getD i 0
      let exit_time := times.getD i 0
      let profit :=
        match p with
        | Side.buy => exit_price - s.entry_price
        | Side.sell => s.entry_price - exit_price
      { trades := s.trades ++
          [⟨p, s.entry_price, exit_price, s.entry_time, exit_time, profit,
            (exit_time - s.entry_time) / 3600⟩]
        position := some sg
        entry_price := exit_price
        entry_time := exit_time }
  | none, _ => s

/-- The full simulation loop of `_backtest_parameters` over the historical
window: bars are walked at indices `1 .. len-1`. -/
def runBacktest (closes times : List ℚ) (sig : ℕ → Option Side) : BTState :=
  (List.range' 1 (closes.length - 1)).foldl (btStep closes times sig) ⟨[], none, 0, 0⟩

/-- The profit factor of the source: `gross_profit / gross_loss` when there
are losses, `float('inf')` when there are wins but no losses, `0` otherwise. -/
inductive EPF where
  | fin : ℚ → EPF
  | inf : EPF
deriving DecidableEq, Repr

/-- Python's `min(profit_factor, 3)` (with `min(float('inf'), 3) = 3`). -/
def minPF3 : EPF → ℚ
  | EPF.fin q => min q 3
  | EPF.inf => 3

/-- The statistics dict built by `_backtest_parameters`. -/
structure BTStats where
  total_trades : ℕ
  win_rate : ℚ
  total_profit : ℚ
  profit_factor : EPF
  gross_profit : ℚ
  gross_loss : ℚ
deriving DecidableEq, Repr

/-- The `{'total_trades': 0, 'win_rate': 0, 'profit_factor': 0}` dict the
source returns on the no-trades early return and inside the `except` handler
(its missing keys modelled as `0`). -/
def zeroStats : BTStats := ⟨0, 0, 0, EPF.fin 0, 0, 0⟩

/--
The statistics-and-scoring tail of `_backtest_parameters` (lines 207-237).
With no trades the sentinel `(-999, zeroStats)` is returned directly; with
fewer than 10 trades the score is the `-999` sentinel but the statistics are
the real ones; otherwise the score is
`(win_rate/100)*0.3 + min(profit_factor,3)*0.4 +
(total_profit/abs(total_profit+0.001))*0.3`.
The middle branch models the `ZeroDivisionError` raised in Python when
`total_profit == -0.001` exactly, which the surrounding `except` turns into
`(-999, zeroStats)`.  (`win_rate`'s `if total_trades > 0` guard is always
taken here since the trade list is non-empty.)
-/
def scoreAndStats (trades : List BTrade) : ℚ × BTStats :=
  if trades.isEmpty then (-999, zeroStats)
  else
    let total_trades := trades.length
    let winning_trades := trades.filter (fun t => decide (0 < t.profit))
    let losing_trades := trades.filter (fun t => decide (t.profit < 0))
    let win_rate : ℚ := (winning_trades.length : ℚ) / (total_trades : ℚ) * 100
    let total_profit : ℚ := (trades.map BTrade.profit).sum
    let gross_profit : ℚ := (winning_trades.map BTrade.profit).sum
    let gross_loss : ℚ := |(losing_trades.map BTrade.profit).sum|
    let profit_factor : EPF :=
      if 0 < gross_loss then EPF.fin (gross_profit / gross_loss)
      else if 0 < gross_profit then EPF.inf else EPF.fin 0
    let stats : BTStats :=
      ⟨total_trades, win_rate, total_profit, profit_factor, gross_profit, gross_loss⟩
    if total_trades < 10 then (-999, stats)
    else if total_profit + 1/1000 = 0 then (-999, zeroStats)
    else
      ((win_rate / 100) * (3/10) + (minPF3 profit_factor) * (4/10) +
        (total_profit / |total_profit + 1/1000|) * (3/10), stats)

/-- `ParameterOptimizer._backtest_parameters` (src/analysis/optimizer.py):
simulate, then score and aggregate. -/
def backtest_parameters (closes times : List ℚ) (sig : ℕ → Option Side) : ℚ × BTStats :=
  scoreAndStats (runBacktest closes times sig).trades

/-- One iteration of the candidate loop of `optimize_strategy`: the
accumulator is `None`/`(best_params, best_score)` with `None` standing for
the initial `best_score = float('-inf')`, over which any score wins; an
existing best is replaced only on a strictly greater score. -/
def optStep {α : Type} (acc : Option (α × ℚ)) (c : α × ℚ) : Option (α × ℚ) :=
  match acc with
  | none => some c
  | some b => if b.2 < c.2 then some c else acc

/-- The candidate loop of `ParameterOptimizer.optimize_strategy`
(src/analysis/optimizer.py): each parameter combination is backtested over
the same historical window with its own isolated strategy instance
(abstracted into its prefix-signal function), and the best score is kept.
Returns the final `(best_params, best_score)` pair. -/
def optimizeFold {α : Type} (closes times : List ℚ)
    (cands : List (α × (ℕ → Option Side))) : Option (α × ℚ) :=
  cands.foldl (fun acc c => optStep acc (c.1, (backtest_parameters closes times c.2).1)) none

/-- The value `optimize_strategy` actually returns: `best_params`. -/
def optimize_strategy {α : Type} (closes times : List ℚ)
    (cands : List (α × (ℕ → Option Side))) : Option α :=
  (optimizeFold closes times cands).map Prod.fst

/-- Verification-side observer: `1` when bar `i` opens a position (either
from flat or by the close-and-reverse branch), `0` otherwise. -/
def btOpensAt (sig : ℕ → Option Side) (s : BTState) (i : ℕ) : ℕ :=
  match sig i, s.position with
  | some _, none => 1
  | some sg, some p => if sg = p then 0 else 1
  | none, _ => 0

/-- Verification-side observer: total number of position openings during the
simulation loop. -/
def btOpens (closes times : List ℚ) (sig : ℕ → Option Side) : ℕ :=
  ((List.range' 1 (closes.length - 1)).foldl
    (fun (sk : BTState × ℕ) i =>
      (btStep closes times sig sk.1 i, sk.2 + btOpensAt sig sk.1 i))
    (⟨[], none, 0, 0⟩, 0)).2

/-! ## src/strategies/dkll_strategy.py -/

/-- One OHLC bar restricted to the fields `DKLLStrategy.calculate_indicators`
reads. -/
structure Bar where
  high : ℚ
  low : ℚ
  close : ℚ
deriving DecidableEq, Repr

/-- The four parameters of the DKLL strategy. -/
structure DKLLParams where
  n_str : ℕ
  n_A1 : ℕ
  n_A2 : ℕ
  n_LL : ℕ
deriving DecidableEq, Repr

/-- A pandas float cell: NaN, a finite value, or a (positive/negative)
infinity produced by a nonzero-over-zero division. -/
inductive PVal where
  | nan : PVal
  | fin : ℚ → PVal
  | pinf : PVal
  | ninf : PVal
deriving DecidableEq, Repr

/-- Elementwise float division with a finite numerator, with the IEEE
semantics pandas uses: `0/0 = NaN`, `x/0 = ±inf` for `x ≠ 0`, `x/±inf = 0`,
and NaN propagating. -/
def pdivQ (a : ℚ) : PVal → PVal
  | PVal.nan => PVal.nan
  | PVal.fin q =>
    if q = 0 then
      if a = 0 then PVal.nan else if 0 < a then PVal.pinf else PVal.ninf
    else PVal.fin (a / q)
  | PVal.pinf => PVal.fin 0
  | PVal.ninf => PVal.fin 0

/-- The comparison `x > 0` on a float cell (`NaN > 0` is `False`). -/
def pvalGtZero : PVal → Bool
  | PVal.nan => false
  | PVal.fin q => decide (0 < q)
  | PVal.pinf => true
  | PVal.ninf => false

/-- The comparison `x < 0` on a float cell (`NaN < 0` is `False`). -/
def pvalLtZero : PVal → Bool
  | PVal.nan => false
  | PVal.fin q => decide (q < 0)
  | PVal.pinf => false
  | PVal.ninf => true

/-- The comparison `x >= 0` on a float cell (`NaN >= 0` is `False`). -/
def pvalGeZero : PVal → Bool
  | PVal.nan => false
  | PVal.fin q => decide (0 ≤ q)
  | PVal.pinf => true
  | PVal.ninf => false

/-- The comparison `a > b` on two optional cells (`False` when either side
is NaN), as in `df['A1'] > df['A2']`. -/
def optGT : Option ℚ → Option ℚ → Bool
  | some x, some y => decide (y < x)
  | _, _ => false

/-- Mean of a pandas rolling window. -/
def listMean (l : List ℚ) : ℚ := l.sum / (l.length : ℚ)

/-- `calculate_avedev` (src/strategies/dkll_strategy.py): the mean absolute
deviation of a full rolling window (always applied to non-empty windows, so
the `len(series) == 0` guard of the source never fires). -/
def calculate_avedev (l : List ℚ) : ℚ := listMean (l.map (fun x => |x - listMean l|))

/-- `calculate_weighted_ma` applied to a full window of length `n`: linear
weights `1..n` ascending with recency (the `len(series) < window` guard of
the source never fires inside `rolling(n).apply`). -/
def calculate_weighted_ma (l : List ℚ) : ℚ :=
  (List.zipWith (fun x k => x * ((k : ℚ) + 1)) l (List.range l.length)).sum /
    ((List.range l.length).map (fun k => ((k : ℚ) + 1))).sum

/-- The rolling window of width `min(i+1, n)` ending at row `i`: the window
`rolling(n, min_periods=1)` aggregates at row `i` (and, when `i + 1 ≥ n`,
also the full window `rolling(n)` aggregates). -/
def lastWindow (l : List ℚ) (i n : ℕ) : List ℚ := (l.take (i + 1)).drop (i + 1 - n)

/-- The `TYP` column: `(close + high + low) / 3`. -/
def dkllTYP (bars : List Bar) : List ℚ :=
  bars.map (fun b => (b.close + b.high + b.low) / 3)

/-- The `MA_DK` column: `TYP.rolling(n_str, min_periods=1).mean()`. -/
def dkllMA_DK (bars : List Bar) (p : DKLLParams) (i : ℕ) : ℚ :=
  listMean (lastWindow (dkllTYP bars) i p.n_str)

/-- The `AVEDEV_DK` column: `TYP.rolling(n_str).apply(calculate_avedev)` —
NaN (`none`) until a full window of `n_str` rows exists. -/
def dkllAVEDEV_DK (bars : List Bar) (p : DKLLParams) (i : ℕ) : Option ℚ :=
  if i + 1 < p.n_str then none
  else some (calculate_avedev (lastWindow (dkllTYP bars) i p.n_str))

/-- The denominator `0.015 * AVEDEV` of the strength/power normalization. -/
def dkllDen (av : Option ℚ) : PVal :=
  match av with
  | none => PVal.nan
  | some v => PVal.fin ((3 / 200) * v)

/-- The `strength` column: `(TYP - MA_DK) / (0.015 * AVEDEV_DK)`. -/
def dkllStrength (bars : List Bar) (p : DKLLParams) (i : ℕ) : PVal :=
  pdivQ ((dkllTYP bars).getD i 0 - dkllMA_DK bars p i) (dkllDen (dkllAVEDEV_DK bars p i))

/-- The `A` column: `(close * 3 + low + high) / 6`. -/
def dkllA (bars : List Bar) : List ℚ :=
  bars.map (fun b => (b.close * 3 + b.low + b.high) / 6)

/-- The `A1` column: `A.rolling(n_A1).apply(calculate_weighted_ma)` — NaN
until a full window exists. -/
def dkllA1 (bars : List Bar) (p : DKLLParams) (i : ℕ) : Option ℚ :=
  if i + 1 < p.n_A1 then none
  else some (calculate_weighted_ma (lastWindow (dkllA bars) i p.n_A1))

/-- The defined (non-NaN) cells of `f` inside the rolling window of width
`min(i+1, n)` ending at row `i`: pandas rolling aggregations skip NaNs. -/
def owindow (f : ℕ → Option ℚ) (i n : ℕ) : List ℚ :=
  ((List.range (min (i + 1) n)).map (fun k => f (i + 1 - min (i + 1) n + k))).filterMap id

/-- The `A2` column: `A1.rolling(n_A2, min_periods=1).mean()` — the mean of
the non-NaN `A1` cells in the window, NaN when there is none. -/
def dkllA2 (bars : List Bar) (p : DKLLParams) (i : ℕ) : Option ℚ :=
  let w := owindow (dkllA1 bars p) i p.n_A2
  if w.isEmpty then none else some (listMean w)

/-- The `DK` column before forward-filling: `1` under
`(strength > 0) & (A1 > A2)`, `-1` under `(strength < 0) & (A1 < A2)`,
`0` otherwise. -/
def dkllDKraw (bars : List Bar) (p : DKLLParams) (i : ℕ) : ℤ :=
  if pvalGtZero (dkllStrength bars p i) && optGT (dkllA1 bars p i) (dkllA2 bars p i) then 1
  else if pvalLtZero (dkllStrength bars p i) && optGT (dkllA2 bars p i) (dkllA1 bars p i) then -1
  else 0

/-- The `DK` column after `replace(0, nan).ffill().fillna(0)`: the last
decisive (nonzero) raw value so far, `0` before the first decision. -/
def dkllDK (bars : List Bar) (p : DKLLParams) : ℕ → ℤ
  | 0 => dkllDKraw bars p 0
  | (i + 1) => if dkllDKraw bars p (i + 1) = 0 then dkllDK bars p i else dkllDKraw bars p (i + 1)

/-- The `MA_LL` column: `TYP.rolling(n_LL, min_periods=1).mean()`. -/
def dkllMA_LL (bars : List Bar) (p : DKLLParams) (i : ℕ) : ℚ :=
  listMean (lastWindow (dkllTYP bars) i p.n_LL)

/-- The `AVEDEV_LL` column: `TYP.rolling(n_LL).apply(calculate_avedev)`. -/
def dkllAVEDEV_LL (bars : List Bar) (p : DKLLParams) (i : ℕ) : Option ℚ :=
  if i + 1 < p.n_LL then none
  else some (calculate_avedev (lastWindow (dkllTYP bars) i p.n_LL))

/-- The `POWER` column: `(TYP - MA_LL) / (0.015 * AVEDEV_LL)`. -/
def dkllPOWER (bars : List Bar) (p : DKLLParams) (i : ℕ) : PVal :=
  pdivQ ((dkllTYP bars).getD i 0 - dkllMA_LL bars p i) (dkllDen (dkllAVEDEV_LL bars p i))

/-- The `LL` column: `np.where(POWER >= 0, 1, -1)` — in particular a NaN
`POWER` cell yields `-1`. -/
def dkllLL (bars : List Bar) (p : DKLLParams) (i : ℕ) : ℤ :=
  if pvalGeZero (dkllPOWER bars p i) then 1 else -1

/-- The `DL` column: `DK + LL`. -/
def dkllDL (bars : List Bar) (p : DKLLParams) (i : ℕ) : ℤ :=
  dkllDK bars p i + dkllLL bars p i

/-- Whether a vanished ticket's broker deal history lets
`update_positions_from_mt5` actually resolve it: the history is empty (the
estimation fallbacks run) or it contains a `DEAL_ENTRY_OUT` deal. -/
def closable (bk : BrokerSnapshot) (t : ℕ) : Prop :=
  bk.history_deals t = [] ∨ ∃ d ∈ bk.history_deals t, d.entry = 1

/-! ## Concrete inputs used by counterexamples and witnesses -/

/-- A prefix-signal function alternating `BUY` on odd bars and `SELL` on even
bars (no signal on bar 0): every bar from the second signal on closes the
previous position and reverses.  Such a signal stream is realisable by a
strategy instance inside `_backtest_parameters`. -/
def sigAlt : ℕ → Option Side := fun i =>
  if i = 0 then none else if i % 2 = 1 then some Side.buy else some Side.sell

/-- Bar times (seconds) for a 12-bar historical window. -/
def times12 : List ℚ := [0, 1, 2, 3, 4, 5, 6, 7, 8, 9, 10, 11]

/-- Closes for which `sigAlt` produces exactly 10 closed trades of profit
`1/10` each (total profit `1`, no losing trade). -/
def closesTenWins : List ℚ := [0, 0, 1/10, 0, 1/10, 0, 1/10, 0, 1/10, 0, 1/10, 0]

/-- Closes for which `sigAlt` produces exactly 10 closed trades of profit
`-10001/10^8` each: total profit `-10001/10^7`, so the score's profit term
`total_profit / abs(total_profit + 0.001)` evaluates to `-10001` and the
overall score to `-30003/10 < -999`. -/
def closesBlowup : List ℚ :=
  [0, 0, -(10001/100000000), 0, -(10001/100000000), 0, -(10001/100000000), 0,
   -(10001/100000000), 0, -(10001/100000000), 0]

/-- An open ledger record for broker ticket 1. -/
def cexOpenRec : OpenRec := ⟨1, "XAUUSD", Side.buy, 1, 100, 0, "DKLL策略"⟩

/-- A tracker state with the single open ticket 1 and no closed trades. -/
def cexTracker : TrackerState := ⟨[], [(1, cexOpenRec)]⟩

/-- A broker snapshot that no longer reports ticket 1 live but whose deal
history for ticket 1 holds only the opening deal (`entry = 0`,
`DEAL_ENTRY_IN`), with a current bid available. -/
def cexBroker : BrokerSnapshot :=
  ⟨[], fun t => if t = 1 then [⟨0, 101, 5, 3⟩] else [], fun _ => some 102⟩

/-- 20 identical bars: every full window of typical prices has zero mean
absolute deviation. -/
def bars20 : List Bar := List.replicate 20 ⟨1, 1, 1⟩

/-- The DKLL strategy's default parameters. -/
def dkllDefaults : DKLLParams := ⟨19, 11, 19, 19⟩

/-- A broker snapshot with no live positions, no deal history at all, and no
tick available: the reconciliation pass must force-close from the open
price. -/
def wBroker : BrokerSnapshot := ⟨[], fun _ => [], fun _ => none⟩

/-! ## Theorems -/

/-- C10: recording a close for a ticket with no open record leaves the
tracker state (both the closed-trade list and the open-position map)
completely untouched. -/
theorem record_close_missing_noop (st : TrackerState) (t : ℕ) (cp : ℚ) (ct : ℤ)
    (pr : Option ℚ) (h : findOpen st.open_positions t = none) :
    record_order_close st t cp ct pr = st := by
  simp [record_order_close, h]

/-- Witness for `record_close_missing_noop` at a concrete state. -/
theorem record_close_missing_noop_witness :
    record_order_close ⟨[], []⟩ 7 1 2 none = ⟨[], []⟩ :=
  record_close_missing_noop ⟨[], []⟩ 7 1 2 none rfl

/-- C7: when a symbol's open-position count has reached its configured
maximum, `check_position_limits` denies the open regardless of every other
input (volumes, account margins, risk configuration). -/
theorem position_limit_gate (c : SymbolConfig) (mc : MoneyConfig)
    (positions : List VolPosition) (account : Option AccountInfo)
    (hen : c.enabled = true) (hlen : positions.length = c.max_positions) :
    (check_position_limits (some c) mc positions account).1 = false := by
  simp [check_position_limits, hen, hlen]

/-- Witness for `position_limit_gate`: two open positions against
`max_positions = 2`, with ample volume headroom, free margin and a healthy
risk ratio. -/
theorem position_limit_gate_witness :
    (check_position_limits (some ⟨true, 2, 100⟩) ⟨1/2, 1/10⟩ [⟨1⟩, ⟨1⟩]
      (some ⟨1000, 1000, 0, 1000⟩)).1 = false :=
  position_limit_gate ⟨true, 2, 100⟩ ⟨1/2, 1/10⟩ [⟨1⟩, ⟨1⟩]
    (some ⟨1000, 1000, 0, 1000⟩) rfl rfl

/-- C6: one evaluation of `check_signal_with_positions` never returns both a
new-open signal and close orders — whenever the close-order list is
non-empty the open signal is `none` — and with no open positions the
close-order list is always empty. -/
theorem signal_close_exclusive (name : String) (signal : Option Side)
    (dl : Option ℚ) (positions : List MT5Position) :
    ((check_signal_with_positions name signal dl positions).2 ≠ [] →
      (check_signal_with_positions name signal dl positions).1 = none) ∧
    (positions = [] →
      (check_signal_with_positions name signal dl positions).2 = []) := by
  constructor
  · intro h
    by_cases hp : positions.length = 0
    · simp [check_signal_with_positions, hp] at h
    · by_cases hemp : (build_close_orders name signal dl positions).isEmpty
      · simp [check_signal_with_positions, hp, hemp] at h
      · simp [check_signal_with_positions, hp, hemp]
  · intro h
    subst h
    simp [check_signal_with_positions]

/-- Witness for `signal_close_exclusive`: a reversing `SELL` signal against
one open long position yields close orders and no open signal. -/
theorem signal_close_exclusive_witness :
    (check_signal_with_positions "双均线策略" (some Side.sell) none
      [⟨5, "XAUUSD", Side.buy⟩]).1 = none :=
  (signal_close_exclusive "双均线策略" (some Side.sell) none
    [⟨5, "XAUUSD", Side.buy⟩]).1 (by decide)

/-- Helper: with a NaN/missing `DL` (read as `0`) under the DKLL strategy,
every position — long or short — generates a close order. -/
theorem build_close_orders_dkll_none (signal : Option Side)
    (positions : List MT5Position) :
    build_close_orders "DKLL策略" signal none positions =
      positions.map (fun pos =>
        match pos.ptype with
        | Side.buy => (⟨pos.ticket, pos.symbol, "DKLL平多信号"⟩ : CloseOrder)
        | Side.sell => (⟨pos.ticket, pos.symbol, "DKLL平空信号"⟩ : CloseOrder)) := by
  induction positions with
  | nil => rfl
  | cons q t ih =>
    cases hq : q.ptype <;>
      simp_all [build_close_orders, List.filterMap_cons, hq]

/-- C8: under the DKLL strategy with open positions, a missing/NaN `DL` is
read as `0`, which satisfies both the long-exit (`DL <= 0`) and the
short-exit (`DL >= 0`) condition: every open position — long and short alike
— receives a close order, and no open signal is returned. -/
theorem dkll_nan_dl_closes_all (signal : Option Side)
    (positions : List MT5Position) (hne : positions ≠ []) :
    (check_signal_with_positions "DKLL策略" signal none positions).1 = none ∧
    ((check_signal_with_positions "DKLL策略" signal none positions).2).map
        CloseOrder.ticket
      = positions.map MT5Position.ticket := by
  have hp : ¬ positions.length = 0 := by
    simpa [List.length_eq_zero] using hne
  have hb := build_close_orders_dkll_none signal positions
  have hemp : (build_close_orders "DKLL策略" signal none positions).isEmpty = false := by
    rw [hb]
    cases positions with
    | nil => exact absurd rfl hne
    | cons q t => rfl
  constructor
  · simp [check_signal_with_positions, hp, hemp]
  · simp only [check_signal_with_positions, if_neg hp, hemp, Bool.false_eq_true,
      if_false]
    rw [hb, List.map_map]
    refine List.map_congr_left ?_
    intro a _
    cases ha : a.ptype <;> simp [ha, Function.comp]

/-- Witness for `dkll_nan_dl_closes_all`: one long and one short position,
both closed. -/
theorem dkll_nan_dl_closes_all_witness :
    (check_signal_with_positions "DKLL策略" (some Side.buy) none
      [⟨1, "XAUUSD", Side.buy⟩, ⟨2, "XAUUSD", Side.sell⟩]).1 = none ∧
    ((check_signal_with_positions "DKLL策略" (some Side.buy) none
      [⟨1, "XAUUSD", Side.buy⟩, ⟨2, "XAUUSD", Side.sell⟩]).2).map CloseOrder.ticket
      = [1, 2] := by
  have h := dkll_nan_dl_closes_all (some Side.buy)
    [⟨1, "XAUUSD", Side.buy⟩, ⟨2, "XAUUSD", Side.sell⟩] (by decide)
  exact ⟨h.1, h.2.trans (by decide)⟩

/-- C5: the MovingAverageCross signal is `BUY` exactly when the short average
was below the long average on the previous bar and above it on the current
bar, `SELL` exactly on the opposite crossing, `None` otherwise; in
particular short-MA `[9, 11]` against long-MA `[10, 10]` yields `BUY`, and
any frame with fewer than 2 bars yields `None`. -/
theorem ma_crossover_correct :
    (∀ (init : List (Option ℚ × Option ℚ)) (prev_s prev_l latest_s latest_l : ℚ),
      (ma_generate_signal (init ++ [(some prev_s, some prev_l), (some latest_s, some latest_l)])
          = some Side.buy ↔ prev_s < prev_l ∧ latest_l < latest_s) ∧
      (ma_generate_signal (init ++ [(some prev_s, some prev_l), (some latest_s, some latest_l)])
          = some Side.sell ↔ prev_l < prev_s ∧ latest_s < latest_l) ∧
      (ma_generate_signal (init ++ [(some prev_s, some prev_l), (some latest_s, some latest_l)])
          = none ↔ ¬(prev_s < prev_l ∧ latest_l < latest_s) ∧
                   ¬(prev_l < prev_s ∧ latest_s < latest_l))) ∧
    ma_generate_signal [(some 9, some 10), (some 11, some 10)] = some Side.buy ∧
    (∀ frame : List (Option ℚ × Option ℚ), frame.length < 2 →
      ma_generate_signal frame = none) := by
  refine ⟨?_, by decide, ?_⟩
  · intro init ps pl ls ll
    have hlen : ¬ (init ++ [(some ps, some pl), (some ls, some ll)]).length < 2 := by
      simp [List.length_append]
    have hrev : (init ++ [((some ps : Option ℚ), (some pl : Option ℚ)),
        ((some ls : Option ℚ), (some ll : Option ℚ))]).reverse
        = (some ls, some ll) :: (some ps, some pl) :: init.reverse := by
      simp
    unfold ma_generate_signal
    rw [if_neg hlen, hrev]
    dsimp only
    split_ifs with h1 h2
    · refine ⟨by simp [h1], ?_, ?_⟩
      · constructor
        · intro h; simp at h
        · intro hc; exact absurd hc.1 (lt_asymm h1.1)
      · constructor
        · intro h; simp at h
        · intro hc; exact absurd h1 hc.1
    · refine ⟨?_, by simp [h2], ?_⟩
      · constructor
        · intro h; simp at h
        · intro hc; exact absurd hc.1 (lt_asymm h2.1)
      · constructor
        · intro h; simp at h
        · intro hc; exact absurd h2 hc.2
    · refine ⟨?_, ?_, by simp [h1, h2]⟩
      · constructor
        · intro h; simp at h
        · intro hc; exact absurd hc h1
      · constructor
        · intro h; simp at h
        · intro hc; exact absurd hc h2
  · intro frame h
    simp [ma_generate_signal, h]

/-- Witness for `ma_crossover_correct`: a one-bar frame yields `None`, and
the concrete crossing `[9, 11]` vs `[10, 10]` yields `BUY` through the iff
characterisation. -/
theorem ma_crossover_correct_witness :
    ma_generate_signal [((some 9 : Option ℚ), (some 10 : Option ℚ))] = none ∧
    ma_generate_signal ([] ++ [((some 9 : Option ℚ), (some 10 : Option ℚ)),
      (some 11, some 10)]) = some Side.buy := by
  refine ⟨ma_crossover_correct.2.2 _ (by decide), ?_⟩
  exact (ma_crossover_correct.1 [] 9 10 11 10).1.mpr (by norm_num)

/-- Helper: with at least 10 trades, the score of `scoreAndStats` is the
source's formula — win-rate term, capped profit factor term, and the
smoothed profit-sign term `total_profit / abs(total_profit + 0.001)`. -/
theorem scoreAndStats_formula (trades : List BTrade)
    (h : 10 ≤ (scoreAndStats trades).2.total_trades) :
    (scoreAndStats trades).1 =
      ((scoreAndStats trades).2.win_rate / 100) * (3/10) +
      (minPF3 (scoreAndStats trades).2.profit_factor) * (4/10) +
      ((scoreAndStats trades).2.total_profit /
        |(scoreAndStats trades).2.total_profit + 1/1000|) * (3/10) := by
  by_cases he : trades.isEmpty
  · simp [scoreAndStats, he, zeroStats] at h
  · simp only [scoreAndStats, he, Bool.false_eq_true, if_false] at h ⊢
    split_ifs at h ⊢
    all_goals try rfl
    all_goals exfalso
    all_goals try simp_all [zeroStats]
    all_goals omega

/-- C2 (amended): for every backtest with at least 10 closed trades, the
returned score is `0.3*(win_rate/100) + 0.4*min(profit_factor, 3) +
0.3*(total_profit/abs(total_profit + 0.001))` — the last term is a smoothed
ratio that approximates, but does not equal, the sign of the total profit. -/
theorem score_formula_amended (closes times : List ℚ) (sig : ℕ → Option Side)
    (h : 10 ≤ (backtest_parameters closes times sig).2.total_trades) :
    (backtest_parameters closes times sig).1 =
      ((backtest_parameters closes times sig).2.win_rate / 100) * (3/10) +
      (minPF3 (backtest_parameters closes times sig).2.profit_factor) * (4/10) +
      ((backtest_parameters closes times sig).2.total_profit /
        |(backtest_parameters closes times sig).2.total_profit + 1/1000|) * (3/10) :=
  scoreAndStats_formula (runBacktest closes times sig).trades h

/-- Witness for `score_formula_amended`: a concrete 12-bar backtest with
exactly 10 closed trades. -/
theorem score_formula_amended_witness :
    10 ≤ (backtest_parameters closesTenWins times12 sigAlt).2.total_trades ∧
    (backtest_parameters closesTenWins times12 sigAlt).1 =
      ((backtest_parameters closesTenWins times12 sigAlt).2.win_rate / 100) * (3/10) +
      (minPF3 (backtest_parameters closesTenWins times12 sigAlt).2.profit_factor) * (4/10) +
      ((backtest_parameters closesTenWins times12 sigAlt).2.total_profit /
        |(backtest_parameters closesTenWins times12 sigAlt).2.total_profit + 1/1000|) * (3/10) :=
  ⟨by decide!, score_formula_amended closesTenWins times12 sigAlt (by decide!)⟩

/-- C2 counterexample: a backtest producing 10 closed trades, each winning
`0.1` (total profit `1`), whose returned score is `3603/2002`, not the
`9/5` the claimed exact-sign profit term would give — the profit term
contributes `0.3 * 1000/1001`, not `0.3 * sign(total_profit)`. -/
theorem score_formula_counterexample :
    10 ≤ (backtest_parameters closesTenWins times12 sigAlt).2.total_trades ∧
    (backtest_parameters closesTenWins times12 sigAlt).1 ≠
      ((backtest_parameters closesTenWins times12 sigAlt).2.win_rate / 100) * (3/10) +
      (minPF3 (backtest_parameters closesTenWins times12 sigAlt).2.profit_factor) * (4/10) +
      (if 0 < (backtest_parameters closesTenWins times12 sigAlt).2.total_profit then (1:ℚ)
        else if (backtest_parameters closesTenWins times12 sigAlt).2.total_profit < 0 then -1
        else 0) * (3/10) := by
  decide!

/-- Helper: folding `optStep` from an existing best returns a final best
whose score dominates the start and every candidate seen. -/
theorem optFold_max {α : Type} (l : List (α × ℚ)) (b : α × ℚ) :
    ∃ r, l.foldl optStep (some b) = some r ∧ b.2 ≤ r.2 ∧ ∀ x ∈ l, x.2 ≤ r.2 := by
  induction l generalizing b with
  | nil => exact ⟨b, rfl, le_refl _, by simp⟩
  | cons c t ih =>
    by_cases hc : b.2 < c.2
    · obtain ⟨r, hr, hle, hall⟩ := ih c
      refine ⟨r, ?_, le_trans (le_of_lt hc) hle, ?_⟩
      · simpa [optStep, hc] using hr
      · intro x hx
        rcases List.mem_cons.mp hx with rfl | hx
        · exact hle
        · exact hall x hx
    · obtain ⟨r, hr, hle, hall⟩ := ih b
      refine ⟨r, ?_, hle, ?_⟩
      · simpa [optStep, hc] using hr
      · intro x hx
        rcases List.mem_cons.mp hx with rfl | hx
        · exact le_trans (le_of_not_lt hc) hle
        · exact hall x hx

/-- Helper: the first-seen best survives the fold when no later candidate
scores strictly higher (ties keep the first-tested combination). -/
theorem optFold_first {α : Type} (l : List (α × ℚ)) (b : α × ℚ) :
    (∀ x ∈ l, x.2 ≤ b.2) → l.foldl optStep (some b) = some b := by
  induction l with
  | nil => intro _; rfl
  | cons c t ih =>
    intro h
    have hc : ¬ b.2 < c.2 := not_lt.mpr (h c (List.mem_cons_self c t))
    rw [List.foldl_cons, show optStep (some b) c = some b by simp [optStep, hc]]
    exact ih (fun x hx => h x (List.mem_cons_of_mem c hx))

/-- Helper: the candidate loop is the fold of `optStep` over the scored
candidates. -/
theorem optimizeFold_eq {α : Type} (closes times : List ℚ)
    (cands : List (α × (ℕ → Option Side))) :
    optimizeFold closes times cands =
      (cands.map (fun c => (c.1, (backtest_parameters closes times c.2).1))).foldl
        optStep none := by
  simp [optimizeFold, List.foldl_map]

/-- C1 (amended): a combination with fewer than 10 backtest trades scores
exactly `-999`, and such a combination is the optimizer's best result only if
no tested candidate scored above `-999` (every candidate's score is at most
the returned best score; a `-999` best therefore bounds all scores by
`-999`); among equal scores the first-tested combination is kept.  Scores
strictly below `-999` are possible — the profit term blows up when the total
profit is slightly below `-0.001` — so "all other candidates scored at most
-999" cannot be strengthened to "exactly -999". -/
theorem optimizer_sentinel_amended {α : Type} (closes times : List ℚ)
    (sig : ℕ → Option Side) (cands : List (α × (ℕ → Option Side))) (p : α) (s : ℚ) :
    ((runBacktest closes times sig).trades.length < 10 →
      (backtest_parameters closes times sig).1 = -999) ∧
    (optimizeFold closes times cands = some (p, s) →
      ∀ c ∈ cands, (backtest_parameters closes times c.2).1 ≤ s) ∧
    (optimizeFold closes times cands = some (p, s) → s = -999 →
      ∀ c ∈ cands, (backtest_parameters closes times c.2).1 ≤ -999) ∧
    (∀ c₀ rest, cands = c₀ :: rest →
      (∀ c ∈ rest, (backtest_parameters closes times c.2).1 ≤
        (backtest_parameters closes times c₀.2).1) →
      optimize_strategy closes times cands = some c₀.1) := by
  have hmax : optimizeFold closes times cands = some (p, s) →
      ∀ c ∈ cands, (backtest_parameters closes times c.2).1 ≤ s := by
    intro hfold c hc
    cases cands with
    | nil => simp [optimizeFold] at hfold
    | cons c₀ rest =>
      rw [optimizeFold_eq, List.map_cons, List.foldl_cons] at hfold
      obtain ⟨r, hr, hle, hall⟩ := optFold_max
        (rest.map (fun c => (c.1, (backtest_parameters closes times c.2).1)))
        (c₀.1, (backtest_parameters closes times c₀.2).1)
      rw [show optStep none (c₀.1, (backtest_parameters closes times c₀.2).1)
          = some (c₀.1, (backtest_parameters closes times c₀.2).1) from rfl, hr] at hfold
      have hrs : r = (p, s) := Option.some.inj hfold
      rcases List.mem_cons.mp hc with rfl | hc
      · simpa [hrs] using hle
      · have := hall (c.1, (backtest_parameters closes times c.2).1)
          (List.mem_map_of_mem _ hc)
        simpa [hrs] using this
  refine ⟨?_, hmax, ?_, ?_⟩
  · intro h
    unfold backtest_parameters
    generalize hg : (runBacktest closes times sig).trades = trades at h
    by_cases he : trades.isEmpty
    · simp [scoreAndStats, he]
    · simp only [scoreAndStats, he, Bool.false_eq_true, if_false]
      rw [if_pos h]
  · intro hfold hs
    subst hs
    exact hmax hfold
  · intro c₀ rest hc hle
    subst hc
    unfold optimize_strategy
    rw [optimizeFold_eq, List.map_cons, List.foldl_cons,
      show optStep none (c₀.1, (backtest_parameters closes times c₀.2).1)
        = some (c₀.1, (backtest_parameters closes times c₀.2).1) from rfl,
      optFold_first _ _ ?_]
    · rfl
    · intro x hx
      obtain ⟨c, hcmem, rfl⟩ := List.mem_map.mp hx
      exact hle c hcmem

/-- C1 counterexample: on the same 12-bar window, candidate 1 yields 10
trades totalling `-0.0010001` and scores `-30003/10 < -999`, while candidate
2 yields no trades and scores exactly `-999`; the optimizer returns
candidate 2 — a fewer-than-10-trades `-999` combination — even though not
every tested candidate scored `-999`. -/
theorem optimizer_sentinel_counterexample :
    optimizeFold closesBlowup times12 [((1:ℕ), sigAlt), (2, fun _ => none)]
      = some (2, -999) ∧
    optimize_strategy closesBlowup times12 [((1:ℕ), sigAlt), (2, fun _ => none)]
      = some 2 ∧
    (runBacktest closesBlowup times12 (fun _ => none)).trades.length < 10 ∧
    (backtest_parameters closesBlowup times12 sigAlt).1 ≠ -999 := by decide!

/-- Witness for `optimizer_sentinel_amended` at the concrete candidate list
of the counterexample input. -/
theorem optimizer_sentinel_amended_witness :
    (backtest_parameters closesBlowup times12 (fun _ => none)).1 = -999 ∧
    (backtest_parameters closesBlowup times12 sigAlt).1 ≤ -999 := by
  have h := @optimizer_sentinel_amended ℕ closesBlowup times12 (fun _ => none)
    [(1, sigAlt), (2, fun _ => none)] 2 (-999)
  refine ⟨h.1 (by decide!), ?_⟩
  exact h.2.2.1 (by decide!) rfl (1, sigAlt) (by simp)

/-- Helper: one simulation step changes the trade count plus open-position
indicator by exactly the number of openings it performs (an opening from
flat raises the indicator; a reversal appends one closed trade and opens
again; everything else changes nothing). -/
theorem btStep_measure (closes times : List ℚ) (sig : ℕ → Option Side)
    (s : BTState) (i : ℕ) :
    (btStep closes times sig s i).trades.length +
      (if (btStep closes times sig s i).position.isSome then 1 else 0) =
    s.trades.length + (if s.position.isSome then 1 else 0) + btOpensAt sig s i := by
  unfold btStep btOpensAt
  cases hsig : sig i with
  | none => cases s.position <;> simp
  | some sg =>
    cases hpos : s.position with
    | none => simp
    | some p =>
      by_cases he : sg = p
      · simp [he, hpos]
      · simp [he, hpos]

/-- Helper: the instrumented fold's running open count accounts exactly for
the growth of trade count plus open-position indicator. -/
theorem btFoldPair (closes times : List ℚ) (sig : ℕ → Option Side) :
    ∀ (l : List ℕ) (s : BTState) (k : ℕ),
      (l.foldl (fun (sk : BTState × ℕ) i =>
          (btStep closes times sig sk.1 i, sk.2 + btOpensAt sig sk.1 i)) (s, k)).2
        + (s.trades.length + (if s.position.isSome then 1 else 0))
      = k + ((l.foldl (btStep closes times sig) s).trades.length +
          (if (l.foldl (btStep closes times sig) s).position.isSome then 1 else 0)) := by
  intro l
  induction l with
  | nil => intro s k; simp
  | cons i t ih =>
    intro s k
    simp only [List.foldl_cons]
    have hstep := btStep_measure closes times sig s i
    have hrec := ih (btStep closes times sig s i) (k + btOpensAt sig s i)
    omega

/-- C9: in the optimizer's simulation, openings = closed trades + (1 if a
position is still open at the end of the window): the position left open
when the last bar has been processed is discarded — it contributes no entry
to the trade list, and the returned statistics (`scoreAndStats`) are
computed from that trade list alone, so it adds no profit, win, or loss. -/
theorem backtest_open_discarded (closes times : List ℚ) (sig : ℕ → Option Side) :
    (btOpens closes times sig =
      (runBacktest closes times sig).trades.length +
      (if (runBacktest closes times sig).position.isSome then 1 else 0)) ∧
    backtest_parameters closes times sig =
      scoreAndStats (runBacktest closes times sig).trades := by
  refine ⟨?_, rfl⟩
  have h := btFoldPair closes times sig (List.range' 1 (closes.length - 1))
    ⟨[], none, 0, 0⟩ 0
  unfold btOpens runBacktest
  simpa using h

/-- Helper: a list of non-negative rationals summing to zero is all zeros. -/
theorem list_sum_nonneg_eq_zero (l : List ℚ) :
    (∀ x ∈ l, 0 ≤ x) → l.sum = 0 → ∀ x ∈ l, x = 0 := by
  induction l with
  | nil => simp
  | cons a t ih =>
    intro hnn hsum x hx
    have ha : 0 ≤ a := hnn a (List.mem_cons_self a t)
    have ht : 0 ≤ t.sum := List.sum_nonneg (fun y hy => hnn y (List.mem_cons_of_mem a hy))
    have hsum' : a + t.sum = 0 := by simpa using hsum
    have ha0 : a = 0 := le_antisymm (by linarith) ha
    have ht0 : t.sum = 0 := by linarith
    rcases List.mem_cons.mp hx with rfl | hx
    · exact ha0
    · exact ih (fun y hy => hnn y (List.mem_cons_of_mem a hy)) ht0 x hx

/-- Helper: zero mean absolute deviation forces every window element to
equal the window mean. -/
theorem calculate_avedev_eq_zero (l : List ℚ) (h : calculate_avedev l = 0) :
    ∀ x ∈ l, x = listMean l := by
  intro x hx
  have hne : l ≠ [] := List.ne_nil_of_mem hx
  have hlen : ((l.map (fun y => |y - listMean l|)).length : ℚ) ≠ 0 := by
    rw [List.length_map]
    exact_mod_cast (by simpa [List.length_eq_zero] using hne :
      l.length ≠ 0)
  have hsum : (l.map (fun y => |y - listMean l|)).sum = 0 := by
    unfold calculate_avedev listMean at h
    rcases div_eq_zero_iff.mp h with h1 | h2
    · exact h1
    · exact absurd h2 hlen
  have hz := list_sum_nonneg_eq_zero _
    (by
      intro y hy
      obtain ⟨z, _, rfl⟩ := List.mem_map.mp hy
      exact abs_nonneg _) hsum (|x - listMean l|)
    (List.mem_map_of_mem _ hx)
  have : x - listMean l = 0 := abs_eq_zero.mp hz
  linarith

/-- Helper: row `i` itself belongs to the rolling window ending at row `i`. -/
theorem getD_mem_lastWindow (l : List ℚ) (i n : ℕ) (hi : i < l.length) (hn : 1 ≤ n) :
    l.getD i 0 ∈ lastWindow l i n := by
  unfold lastWindow
  have hT : (l.take (i+1)).length = i + 1 := by
    rw [List.length_take]
    omega
  have hd : i + 1 - n ≤ i := by omega
  have hlt : i - (i + 1 - n) < ((l.take (i+1)).drop (i + 1 - n)).length := by
    rw [List.length_drop, hT]
    omega
  have he : ((l.take (i+1)).drop (i + 1 - n))[i - (i + 1 - n)] = l.getD i 0 := by
    rw [List.getElem_drop]
    have h1 : (i + 1 - n) + (i - (i + 1 - n)) = i := by omega
    have h2 : (i + 1 - n) + (i - (i + 1 - n)) < (l.take (i+1)).length := by omega
    rw [List.getD_eq_getElem l 0 hi]
    simp only [h1]  -- hmm rewrite index
    rw [List.getElem_take]
  rw [← he]
  exact List.getElem_mem hlt

/-- Helper: on a full zero-deviation window the `strength` normalization is
a genuine `0/0` and produces NaN. -/
theorem dkllStrength_nan (bars : List Bar) (p : DKLLParams) (j : ℕ)
    (hj : j < bars.length) (hn : 1 ≤ p.n_str)
    (h : dkllAVEDEV_DK bars p j = some 0) : dkllStrength bars p j = PVal.nan := by
  have hav : calculate_avedev (lastWindow (dkllTYP bars) j p.n_str) = 0 := by
    unfold dkllAVEDEV_DK at h
    split at h
    · cases h
    · exact Option.some.inj h
  have hjt : j < (dkllTYP bars).length := by
    unfold dkllTYP
    rwa [List.length_map]
  have hnum : (dkllTYP bars).getD j 0 = listMean (lastWindow (dkllTYP bars) j p.n_str) :=
    calculate_avedev_eq_zero _ hav _ (getD_mem_lastWindow _ j p.n_str hjt hn)
  unfold dkllStrength dkllMA_DK
  rw [h]
  unfold dkllDen
  have hnum0 : (dkllTYP bars).getD j 0
      - listMean (lastWindow (dkllTYP bars) j p.n_str) = 0 := by
    rw [hnum]; ring
  rw [hnum0]
  simp [pdivQ]

/-- Helper: on a full zero-deviation window the `POWER` normalization is a
genuine `0/0` and produces NaN. -/
theorem dkllPOWER_nan (bars : List Bar) (p : DKLLParams) (j : ℕ)
    (hj : j < bars.length) (hn : 1 ≤ p.n_LL)
    (h : dkllAVEDEV_LL bars p j = some 0) : dkllPOWER bars p j = PVal.nan := by
  have hav : calculate_avedev (lastWindow (dkllTYP bars) j p.n_LL) = 0 := by
    unfold dkllAVEDEV_LL at h
    split at h
    · cases h
    · exact Option.some.inj h
  have hjt : j < (dkllTYP bars).length := by
    unfold dkllTYP
    rwa [List.length_map]
  have hnum : (dkllTYP bars).getD j 0 = listMean (lastWindow (dkllTYP bars) j p.n_LL) :=
    calculate_avedev_eq_zero _ hav _ (getD_mem_lastWindow _ j p.n_LL hjt hn)
  unfold dkllPOWER dkllMA_LL
  rw [h]
  unfold dkllDen
  have hnum0 : (dkllTYP bars).getD j 0
      - listMean (lastWindow (dkllTYP bars) j p.n_LL) = 0 := by
    rw [hnum]; ring
  rw [hnum0]
  simp [pdivQ]

/-- Helper: the raw `DK` condition value is always `-1`, `0` or `1`. -/
theorem dkllDKraw_mem (bars : List Bar) (p : DKLLParams) (i : ℕ) :
    dkllDKraw bars p i = -1 ∨ dkllDKraw bars p i = 0 ∨ dkllDKraw bars p i = 1 := by
  unfold dkllDKraw
  split_ifs <;> simp

/-- Helper: the forward-filled `DK` column is always `-1`, `0` or `1`. -/
theorem dkllDK_mem (bars : List Bar) (p : DKLLParams) :
    ∀ i, dkllDK bars p i = -1 ∨ dkllDK bars p i = 0 ∨ dkllDK bars p i = 1 := by
  intro i
  induction i with
  | zero => simpa [dkllDK] using dkllDKraw_mem bars p 0
  | succ i ih =>
    by_cases h : dkllDKraw bars p (i+1) = 0
    · simpa [dkllDK, h] using ih
    · simpa [dkllDK, h] using dkllDKraw_mem bars p (i+1)

/-- Helper: the `LL` column is always `-1` or `1` (`np.where` maps even a
NaN `POWER` to the constant `-1`). -/
theorem dkllLL_mem (bars : List Bar) (p : DKLLParams) (i : ℕ) :
    dkllLL bars p i = -1 ∨ dkllLL bars p i = 1 := by
  unfold dkllLL
  split_ifs <;> simp

/-- C4: for every bar sequence containing a full window of typical prices
with zero mean absolute deviation, the `strength`/`POWER` normalizations
divide by zero there and produce NaN, yet the `DK`, `LL` and `DL` columns
consumed by the signal decision are always defined and bounded: `DK` is
`-1/0/1` (forward-fill keeps the last decisive value, defaulting to `0`),
`LL` is `-1/1` (`np.where` maps a NaN comparison to the constant `-1`), and
`DL = DK + LL` lies in `[-2, 2]` — no NaN or unbounded value reaches them. -/
theorem dkll_zero_deviation_safe (bars : List Bar) (p : DKLLParams)
    (hn : 1 ≤ p.n_str)
    (_hz : ∃ i, i < bars.length ∧ dkllAVEDEV_DK bars p i = some 0) :
    (∀ i, (dkllDK bars p i = -1 ∨ dkllDK bars p i = 0 ∨ dkllDK bars p i = 1) ∧
      (dkllLL bars p i = -1 ∨ dkllLL bars p i = 1) ∧
      dkllDL bars p i = dkllDK bars p i + dkllLL bars p i ∧
      -2 ≤ dkllDL bars p i ∧ dkllDL bars p i ≤ 2) ∧
    (∀ j, j < bars.length → dkllAVEDEV_DK bars p j = some 0 →
      dkllStrength bars p j = PVal.nan) ∧
    (∀ j, j < bars.length → 1 ≤ p.n_LL → dkllAVEDEV_LL bars p j = some 0 →
      dkllPOWER bars p j = PVal.nan) := by
  refine ⟨?_, ?_, ?_⟩
  · intro i
    have hdk := dkllDK_mem bars p i
    have hll := dkllLL_mem bars p i
    have hdl : dkllDL bars p i = dkllDK bars p i + dkllLL bars p i := rfl
    refine ⟨hdk, hll, hdl, ?_, ?_⟩ <;>
      (rw [hdl]; rcases hdk with h | h | h <;> rcases hll with h' | h' <;>
        rw [h, h'] <;> norm_num)
  · intro j hj hav
    exact dkllStrength_nan bars p j hj hn hav
  · intro j hj hnLL hav
    exact dkllPOWER_nan bars p j hj hnLL hav

/-- Witness for `dkll_zero_deviation_safe`: 20 constant bars under the
default parameters; at row 18 the window deviation is exactly zero. -/
theorem dkll_zero_deviation_safe_witness :
    dkllStrength bars20 dkllDefaults 18 = PVal.nan ∧
    dkllPOWER bars20 dkllDefaults 18 = PVal.nan ∧
    (-2 ≤ dkllDL bars20 dkllDefaults 18 ∧ dkllDL bars20 dkllDefaults 18 ≤ 2) := by
  have h := dkll_zero_deviation_safe bars20 dkllDefaults (by norm_num [dkllDefaults])
    ⟨18, by norm_num [bars20], by decide!⟩
  exact ⟨h.2.1 18 (by norm_num [bars20]) (by decide!),
    h.2.2 18 (by norm_num [bars20]) (by norm_num [dkllDefaults]) (by decide!),
    (h.1 18).2.2.2⟩

/-- Helper: deleting a ticket's entry removes it from the open map. -/
theorem findOpen_filter_self (l : List (ℕ × OpenRec)) (t : ℕ) :
    findOpen (l.filter (fun p => p.1 ≠ t)) t = none := by
  induction l with
  | nil => rfl
  | cons q rest ih =>
    by_cases hq : q.1 = t
    · simpa [List.filter_cons, hq] using ih
    · simpa [List.filter_cons, hq, findOpen] using ih

/-- Helper: deleting one ticket leaves every other lookup unchanged. -/
theorem findOpen_filter_other (l : List (ℕ × OpenRec)) (t t' : ℕ) (h : t' ≠ t) :
    findOpen (l.filter (fun p => p.1 ≠ t)) t' = findOpen l t' := by
  have h2 : ¬ t = t' := fun he => h he.symm
  induction l with
  | nil => rfl
  | cons q rest ih =>
    by_cases hq : q.1 = t
    · simpa [List.filter_cons, hq, findOpen, h2] using ih
    · by_cases hq' : q.1 = t'
      · simp [List.filter_cons, hq, findOpen, hq', h]
      · simpa [List.filter_cons, hq, findOpen, hq', h] using ih

/-- Helper: closing a found ticket appends exactly one completed record and
deletes the open entry. -/
theorem record_order_close_found (st : TrackerState) (t : ℕ) (cp : ℚ) (ct : ℤ)
    (pr : Option ℚ) (r : OpenRec) (h : findOpen st.open_positions t = some r) :
    record_order_close st t cp ct pr =
      ⟨st.trades ++ [mkClosed r cp ct pr],
        st.open_positions.filter (fun p => p.1 ≠ t)⟩ := by
  simp [record_order_close, h]

/-- Helper: closing one ticket leaves other tickets' lookups unchanged. -/
theorem record_order_close_other (st : TrackerState) (t t' : ℕ) (cp : ℚ) (ct : ℤ)
    (pr : Option ℚ) (h : t' ≠ t) :
    findOpen (record_order_close st t cp ct pr).open_positions t'
      = findOpen st.open_positions t' := by
  unfold record_order_close
  cases hf : findOpen st.open_positions t with
  | none => rfl
  | some r => exact findOpen_filter_other _ t t' h

/-- Helper: resolving one vanished ticket either leaves the state unchanged
or performs a single `record_order_close` on that ticket. -/
theorem closeOne_shape_gen (bk : BrokerSnapshot) (now : ℤ) (st : TrackerState) (t : ℕ) :
    closeOneTicket bk now st t = st ∨
    ∃ cp ct pr, closeOneTicket bk now st t = record_order_close st t cp ct pr := by
  simp only [closeOneTicket]
  by_cases hd : (bk.history_deals t).isEmpty
  · rw [if_pos hd]
    cases hf : findOpen st.open_positions t with
    | none => left; rfl
    | some r =>
      dsimp only
      cases hb : bk.tick_bid r.symbol with
      | none => right; exact ⟨r.open_price, now, none, rfl⟩
      | some pr =>
        dsimp only
        by_cases hz : pr = 0
        · rw [if_pos hz]; right; exact ⟨r.open_price, now, none, rfl⟩
        · rw [if_neg hz]; right; exact ⟨pr, now, none, rfl⟩
  · rw [if_neg hd]
    cases hf : (bk.history_deals t).find? (fun d => d.entry == 1) with
    | none => left; rfl
    | some d => right; exact ⟨d.price, d.time, some d.profit, rfl⟩

/-- Helper: resolving one ticket leaves other tickets' lookups unchanged. -/
theorem closeOne_other (bk : BrokerSnapshot) (now : ℤ) (st : TrackerState)
    (t t' : ℕ) (h : t' ≠ t) :
    findOpen (closeOneTicket bk now st t).open_positions t'
      = findOpen st.open_positions t' := by
  rcases closeOne_shape_gen bk now st t with hs | ⟨cp, ct, pr, hs⟩
  · rw [hs]
  · rw [hs]; exact record_order_close_other st t t' cp ct pr h

/-- Helper: resolving a ticket never removes recorded closed trades. -/
theorem closeOne_trades_mono (bk : BrokerSnapshot) (now : ℤ) (st : TrackerState)
    (t : ℕ) (cr : ClosedRec) (h : cr ∈ st.trades) :
    cr ∈ (closeOneTicket bk now st t).trades := by
  rcases closeOne_shape_gen bk now st t with hs | ⟨cp, ct, pr, hs⟩
  · rw [hs]; exact h
  · rw [hs]
    unfold record_order_close
    cases hf : findOpen st.open_positions t with
    | none => exact h
    | some r => exact List.mem_append_left _ h

/-- Helper: with a `DEAL_ENTRY_OUT` deal found in the history, the ticket is
closed with the deal's price, time and profit. -/
theorem closeOne_hist_out (bk : BrokerSnapshot) (now : ℤ) (st : TrackerState)
    (t : ℕ) (d : Deal)
    (hd : (bk.history_deals t).find? (fun x => x.entry == 1) = some d) :
    closeOneTicket bk now st t = record_order_close st t d.price d.time (some d.profit) := by
  have hne : ¬ (bk.history_deals t).isEmpty = true := by
    cases hdl : bk.history_deals t with
    | nil => rw [hdl] at hd; cases hd
    | cons a l => simp
  simp only [closeOneTicket]
  rw [if_neg hne, hd]

/-- Helper: with empty history and a usable (nonzero) current bid, the
ticket is closed at the bid. -/
theorem closeOne_tick (bk : BrokerSnapshot) (now : ℤ) (st : TrackerState)
    (t : ℕ) (r : OpenRec) (pr : ℚ)
    (hd : bk.history_deals t = [])
    (hf : findOpen st.open_positions t = some r)
    (hb : bk.tick_bid r.symbol = some pr) (hz : pr ≠ 0) :
    closeOneTicket bk now st t = record_order_close st t pr now none := by
  simp only [closeOneTicket, hd, List.isEmpty_nil, if_true, hf, hb]
  rw [if_neg hz]

/-- Helper: with empty history and no usable bid, the ticket is force-closed
at its own open price. -/
theorem closeOne_force (bk : BrokerSnapshot) (now : ℤ) (st : TrackerState)
    (t : ℕ) (r : OpenRec)
    (hd : bk.history_deals t = [])
    (hf : findOpen st.open_positions t = some r)
    (hb : bk.tick_bid r.symbol = none ∨ bk.tick_bid r.symbol = some 0) :
    closeOneTicket bk now st t = record_order_close st t r.open_price now none := by
  rcases hb with hb | hb
  · simp only [closeOneTicket, hd, List.isEmpty_nil, if_true, hf, hb]
  · simp only [closeOneTicket, hd, List.isEmpty_nil, if_true, hf, hb, if_pos]

/-- Helper: a closable vanished ticket is resolved by appending exactly one
completed record and deleting its open entry. -/
theorem closeOne_closes (bk : BrokerSnapshot) (now : ℤ) (st : TrackerState)
    (t : ℕ) (r : OpenRec) (hc : closable bk t)
    (hf : findOpen st.open_positions t = some r) :
    ∃ cr, closeOneTicket bk now st t =
      ⟨st.trades ++ [cr], st.open_positions.filter (fun p => p.1 ≠ t)⟩ := by
  rcases hc with hd | ⟨d, hdm, hde⟩
  · cases hb : bk.tick_bid r.symbol with
    | none =>
      exact ⟨mkClosed r r.open_price now none, by
        rw [closeOne_force bk now st t r hd hf (Or.inl hb)]
        exact record_order_close_found st t r.open_price now none r hf⟩
    | some pr =>
      by_cases hz : pr = 0
      · subst hz
        exact ⟨mkClosed r r.open_price now none, by
          rw [closeOne_force bk now st t r hd hf (Or.inr hb)]
          exact record_order_close_found st t r.open_price now none r hf⟩
      · exact ⟨mkClosed r pr now none, by
          rw [closeOne_tick bk now st t r pr hd hf hb hz]
          exact record_order_close_found st t pr now none r hf⟩
  · have : ∃ d', (bk.history_deals t).find? (fun x => x.entry == 1) = some d' := by
      have : ((bk.history_deals t).find? (fun x => x.entry == 1)).isSome := by
        rw [List.find?_isSome]
        exact ⟨d, hdm, by simpa using hde⟩
      exact Option.isSome_iff_exists.mp this
    obtain ⟨d', hd'⟩ := this
    exact ⟨mkClosed r d'.price d'.time (some d'.profit), by
      rw [closeOne_hist_out bk now st t d' hd']
      exact record_order_close_found st t d'.price d'.time (some d'.profit) r hf⟩

/-- Helper: a successful lookup means the ticket is among the open keys. -/
theorem findOpen_some_mem_keys (l : List (ℕ × OpenRec)) (t : ℕ) (r : OpenRec)
    (h : findOpen l t = some r) : t ∈ l.map Prod.fst := by
  induction l with
  | nil => cases h
  | cons q rest ih =>
    unfold findOpen at h
    split at h
    · rename_i hq
      simp [← hq]
    · exact List.mem_cons_of_mem _ (ih h)

/-- Helper: a ticket among the open keys has a successful lookup. -/
theorem mem_keys_findOpen_isSome (l : List (ℕ × OpenRec)) (t : ℕ)
    (h : t ∈ l.map Prod.fst) : (findOpen l t).isSome := by
  induction l with
  | nil => cases h
  | cons q rest ih =>
    unfold findOpen
    by_cases hq : q.1 = t
    · simp [hq]
    · rw [if_neg hq]
      rw [List.map_cons] at h
      rcases List.mem_cons.mp h with he | hm
      · exact absurd he.symm hq
      · exact ih hm

/-- Helper: a reconciliation fold over other tickets leaves a ticket's
lookup unchanged. -/
theorem fold_closeOne_other (bk : BrokerSnapshot) (now : ℤ) :
    ∀ (ts : List ℕ) (st : TrackerState) (t : ℕ), t ∉ ts →
      findOpen ((ts.foldl (closeOneTicket bk now) st)).open_positions t
        = findOpen st.open_positions t := by
  intro ts
  induction ts with
  | nil => intro st t _; rfl
  | cons u rest ih =>
    intro st t ht
    have hne : t ≠ u := fun he => ht (he ▸ List.mem_cons_self u rest)
    rw [List.foldl_cons, ih _ t (fun hm => ht (List.mem_cons_of_mem u hm))]
    exact closeOne_other bk now st u t hne

/-- Helper: the reconciliation fold never removes recorded closed trades. -/
theorem fold_closeOne_trades_mono (bk : BrokerSnapshot) (now : ℤ) :
    ∀ (ts : List ℕ) (st : TrackerState) (cr : ClosedRec), cr ∈ st.trades →
      cr ∈ ((ts.foldl (closeOneTicket bk now) st)).trades := by
  intro ts
  induction ts with
  | nil => intro st cr h; exact h
  | cons u rest ih =>
    intro st cr h
    rw [List.foldl_cons]
    exact ih _ cr (closeOne_trades_mono bk now st u cr h)

/-- Helper: folding over distinct closable open tickets appends exactly one
closed trade per ticket. -/
theorem fold_closeOne_length (bk : BrokerSnapshot) (now : ℤ) :
    ∀ (ts : List ℕ) (st : TrackerState), ts.Nodup →
      (∀ t ∈ ts, closable bk t ∧ (findOpen st.open_positions t).isSome) →
      ((ts.foldl (closeOneTicket bk now) st)).trades.length
        = st.trades.length + ts.length := by
  intro ts
  induction ts with
  | nil => intro st _ _; simp
  | cons u rest ih =>
    intro st hnd hall
    obtain ⟨hcu, hsu⟩ := hall u (List.mem_cons_self u rest)
    obtain ⟨r, hr⟩ := Option.isSome_iff_exists.mp hsu
    obtain ⟨cr, hshape⟩ := closeOne_closes bk now st u r hcu hr
    rw [List.foldl_cons, ih _ (List.nodup_cons.mp hnd).2 ?_, hshape]
    · simp [hshape]
      omega
    · intro t ht
      have hne : t ≠ u := fun he => (List.nodup_cons.mp hnd).1 (he ▸ ht)
      refine ⟨(hall t (List.mem_cons_of_mem u ht)).1, ?_⟩
      rw [hshape]
      show (findOpen (st.open_positions.filter (fun p => p.1 ≠ u)) t).isSome
      rw [findOpen_filter_other _ u t hne]
      exact (hall t (List.mem_cons_of_mem u ht)).2

/-- Helper: a close recorded at the trade's own open price realizes exactly
zero measured profit, for longs and shorts alike. -/
theorem mkClosed_self_profit (r : OpenRec) (ct : ℤ) :
    (mkClosed r r.open_price ct none).profit = 0 := by
  unfold mkClosed
  cases r.side <;> simp

/-- C3 (amended): for every ticket in the ledger's open set but absent from
the broker's live positions whose deal history is resolvable — empty, or
containing a `DEAL_ENTRY_OUT` deal — one reconciliation pass closes it (it
is no longer open afterwards) and the closed-trade list grows by exactly one
per vanished resolvable ticket, with the close chosen by the ordered
fallback: the first `DEAL_ENTRY_OUT` deal's price/time/profit; else the
current bid when available and nonzero; else the trade's own open price,
realizing exactly zero measured profit.  (The amendment restricts the claim
to resolvable histories: a non-empty history with no `DEAL_ENTRY_OUT` entry
leaves the ticket open, see the counterexample.) -/
theorem reconciliation_amended (bk : BrokerSnapshot) (now : ℤ) (st : TrackerState)
    (t : ℕ) (r : OpenRec)
    (hnd : (st.open_positions.map Prod.fst).Nodup)
    (hr : findOpen st.open_positions t = some r)
    (habs : t ∉ bk.current_tickets)
    (hclos : ∀ t' ∈ closedTickets st bk, closable bk t') :
    t ∈ closedTickets st bk ∧
    findOpen (update_positions_from_mt5 bk now st).open_positions t = none ∧
    (update_positions_from_mt5 bk now st).trades.length
      = st.trades.length + (closedTickets st bk).length ∧
    (∀ d, (bk.history_deals t).find? (fun x => x.entry == 1) = some d →
      mkClosed r d.price d.time (some d.profit)
        ∈ (update_positions_from_mt5 bk now st).trades) ∧
    (∀ pr, bk.history_deals t = [] → bk.tick_bid r.symbol = some pr → pr ≠ 0 →
      mkClosed r pr now none ∈ (update_positions_from_mt5 bk now st).trades) ∧
    (bk.history_deals t = [] →
      (bk.tick_bid r.symbol = none ∨ bk.tick_bid r.symbol = some 0) →
      mkClosed r r.open_price now none ∈ (update_positions_from_mt5 bk now st).trades ∧
      (mkClosed r r.open_price now none).profit = 0) := by
  have hmem : t ∈ closedTickets st bk := by
    unfold closedTickets
    exact List.mem_filter.mpr ⟨findOpen_some_mem_keys _ t r hr, by simpa using habs⟩
  have hndc : (closedTickets st bk).Nodup := hnd.filter _
  obtain ⟨ts₁, ts₂, hsplit⟩ := List.append_of_mem hmem
  have hnd2 : (ts₁ ++ t :: ts₂).Nodup := hsplit ▸ hndc
  rcases List.nodup_append.mp hnd2 with ⟨hn1, hn2, hdisj⟩
  have ht1 : t ∉ ts₁ := fun ht => hdisj ht (List.mem_cons_self t ts₂)
  have ht2 : t ∉ ts₂ := (List.nodup_cons.mp hn2).1
  have hupd : update_positions_from_mt5 bk now st
      = ts₂.foldl (closeOneTicket bk now)
          (closeOneTicket bk now (ts₁.foldl (closeOneTicket bk now) st) t) := by
    unfold update_positions_from_mt5
    rw [hsplit, List.foldl_append, List.foldl_cons]
  have hrA : findOpen (ts₁.foldl (closeOneTicket bk now) st).open_positions t = some r := by
    rw [fold_closeOne_other bk now ts₁ st t ht1]
    exact hr
  have hct : closable bk t := hclos t hmem
  obtain ⟨cr0, hshape⟩ := closeOne_closes bk now (ts₁.foldl (closeOneTicket bk now) st) t r hct hrA
  refine ⟨hmem, ?_, ?_, ?_, ?_, ?_⟩
  · rw [hupd, fold_closeOne_other bk now ts₂ _ t ht2, hshape]
    exact findOpen_filter_self _ t
  · exact fold_closeOne_length bk now (closedTickets st bk) st hndc
      (fun t' ht' => ⟨hclos t' ht',
        mem_keys_findOpen_isSome _ t' (List.mem_filter.mp ht').1⟩)
  · intro d hd
    rw [hupd]
    refine fold_closeOne_trades_mono bk now ts₂ _ _ ?_
    rw [closeOne_hist_out bk now _ t d hd,
      record_order_close_found _ t d.price d.time (some d.profit) r hrA]
    exact List.mem_append_right _ (List.mem_singleton_self _)
  · intro pr hd hb hz
    rw [hupd]
    refine fold_closeOne_trades_mono bk now ts₂ _ _ ?_
    rw [closeOne_tick bk now _ t r pr hd hrA hb hz,
      record_order_close_found _ t pr now none r hrA]
    exact List.mem_append_right _ (List.mem_singleton_self _)
  · intro hd hb
    refine ⟨?_, mkClosed_self_profit r now⟩
    rw [hupd]
    refine fold_closeOne_trades_mono bk now ts₂ _ _ ?_
    rw [closeOne_force bk now _ t r hd hrA hb,
      record_order_close_found _ t r.open_price now none r hrA]
    exact List.mem_append_right _ (List.mem_singleton_self _)

/-- C3 counterexample: ticket 1 is open locally and absent from the broker,
but its deal history holds only the opening (`DEAL_ENTRY_IN`) deal: the pass
finds no `DEAL_ENTRY_OUT` entry, records nothing, and leaves the ticket
open — contradicting the claim that no such ticket is ever left open. -/
theorem reconciliation_counterexample :
    findOpen cexTracker.open_positions 1 = some cexOpenRec ∧
    1 ∈ closedTickets cexTracker cexBroker ∧
    findOpen (update_positions_from_mt5 cexBroker 10 cexTracker).open_positions 1
      = some cexOpenRec ∧
    (update_positions_from_mt5 cexBroker 10 cexTracker).trades = [] := by
  decide!

/-- Witness for `reconciliation_amended`: one open ticket, empty deal
history and no tick; the pass force-closes it from the open price with zero
profit. -/
theorem reconciliation_amended_witness :
    findOpen (update_positions_from_mt5 wBroker 10 cexTracker).open_positions 1 = none ∧
    (update_positions_from_mt5 wBroker 10 cexTracker).trades.length = 1 ∧
    mkClosed cexOpenRec cexOpenRec.open_price 10 none
      ∈ (update_positions_from_mt5 wBroker 10 cexTracker).trades ∧
    (mkClosed cexOpenRec cexOpenRec.open_price 10 none).profit = 0 := by
  have h := reconciliation_amended wBroker 10 cexTracker 1 cexOpenRec
    (by decide) rfl (by decide) (fun t' ht' => Or.inl rfl)
  refine ⟨h.2.1, ?_, (h.2.2.2.2.2 rfl (Or.inl rfl)).1, (h.2.2.2.2.2 rfl (Or.inl rfl)).2⟩
  rw [h.2.2.1]
  decide
